import Mathlib

/-!
Shallow embedding of the V2X trust and messaging-authentication subsystem
(`security/security_manager.py` together with the constants of
`security/settings.py`).

Modelling conventions, chosen once and used throughout:

* Elliptic-curve key pairs are symbolic: a key pair is a natural-number
  identifier, and the public key equals that identifier.  Signing produces the
  pair of the signing key and the signed data; verification succeeds exactly
  when the signature was produced by the matching key over exactly the given
  data.  This is the standard symbolic (Dolev-Yao) idealisation of an
  unforgeable signature scheme.
* Randomness (`ec.generate_private_key`, `x509.random_serial_number`) is
  modelled by fresh-name supplies: counters `next_key` and `next_serial`
  threaded through a `World`.  Freshness of a counter models the
  with-overwhelming-probability uniqueness of high-entropy random values.
* The ambient clock `datetime.now(timezone.utc)` is modelled by the `clock`
  field of the `World` for signing/issuing operations, and by an explicit
  `now : Int` argument where a function reads the clock internally
  (`message_verifier`, `add_revocation`).  Times are integers (seconds);
  `CERT_VALIDITY = timedelta(minutes=10)` becomes 600.
* PEM encoding/decoding of certificates is modelled as the identity on an
  `EncodedCert` wrapper with an extra `malformed` constructor for byte strings
  that `load_pem_x509_certificate` rejects; base64 encoding of signatures is
  modelled as the identity.
* Python dicts are association lists with unique keys; field-map values are
  modelled as strings, and JSON string escaping is not modelled (keys and
  values are assumed escape-free, as in the simulation data).
* A Python function that can raise an uncaught exception returns a
  `VerifyResult` with a `raised` constructor carrying the exception note.
-/

/-! ### settings.py -/

/-- settings.CERT_VALIDITY = timedelta(minutes = 10), in seconds. -/
def CERT_VALIDITY : Int := 600

/-- settings.NO_OF_VEH_CERTS = 100. -/
def NO_OF_VEH_CERTS : Nat := 100

/-- settings.NO_OF_MSG_CERT_ROT = 10. -/
def NO_OF_MSG_CERT_ROT : Nat := 10

/-! ### Symbolic cryptography -/

/-- A signature over data of type α: records which key produced it and what
was signed.  Models an ECDSA signature symbolically. -/
structure Sig (α : Type) where
  key : Nat
  data : α
deriving DecidableEq

/-- Signature verification: `pub.verify(sig, msg, alg)` succeeds iff `sig` was
produced by the key matching `pub` over exactly the bytes `msg`. -/
def sig_verify {α : Type} [DecidableEq α] (pub : Nat) (s : Sig α) (msg : α) : Bool :=
  decide (s.key = pub ∧ s.data = msg)

/-! ### Certificates -/

/-- The to-be-signed body of an X.509 certificate as built by
`CertifyingAuthority.build_certificate`. -/
structure CertBody where
  serial_number : Nat
  subject_common_name : String
  issuer_common_name : String
  subject_public_key : Nat
  not_valid_before : Int
  not_valid_after : Int
deriving DecidableEq

/-- A signed certificate: body plus the CA signature over
`tbs_certificate_bytes`. -/
structure Certificate where
  tbs : CertBody
  ca_signature : Sig CertBody
deriving DecidableEq

/-- PEM-encoded certificate bytes as carried inside a payload: either a valid
encoding of a certificate or bytes that fail to parse. -/
inductive EncodedCert where
  | pem (c : Certificate)
  | malformed
deriving DecidableEq

/-- cryptography.x509.load_pem_x509_certificate, as a partial decoder:
`none` models the ValueError the library raises on unparsable bytes. -/
def load_pem_x509_certificate : EncodedCert → Option Certificate
  | .pem c => some c
  | .malformed => none

/-! ### Payloads, revocation entries, dictionaries -/

/-- The outbound payload dict returned by `prepare_message`. -/
structure Payload where
  message : String
  signature : Sig String
  certificate : EncodedCert
deriving DecidableEq

/-- One entry of the certificate revocation list. -/
structure RevocationEntry where
  issuer : String
  date : Int
  reason : String
deriving DecidableEq

/-- Python dict lookup `m[k]` / `m.get(k)` on an association list. -/
def dict_get {κ β : Type} [DecidableEq κ] : List (κ × β) → κ → Option β
  | [], _ => none
  | (k', v) :: m, k => if k' = k then some v else dict_get m k

/-- Python dict assignment `m[k] = v` on an association list: replaces the
binding in place if the key is present, otherwise appends it. -/
def dict_insert {κ β : Type} [DecidableEq κ] : List (κ × β) → κ → β → List (κ × β)
  | [], k, v => [(k, v)]
  | (k', v') :: m, k, v =>
    if k' = k then (k, v) :: m else (k', v') :: dict_insert m k v

/-! ### Certifying authority state -/

/-- CertifyingAuthority state: root key pair (one symbolic identifier serves
as `ca_pvt_key` and `ca_pub_key`), the issuance ledgers, and the CRL. -/
structure CertifyingAuthority where
  ca_key : Nat
  ca_vehicles : List (Nat × List Certificate)
  ca_infrastructures : List (Nat × Certificate)
  crl : List (Nat × RevocationEntry)
deriving DecidableEq

/-- The root public key, equal to the symbolic root key-pair identifier. -/
def CertifyingAuthority.ca_pub_key (ca : CertifyingAuthority) : Nat := ca.ca_key

/-! ### message_verifier -/

/-- The classified verification statuses returned by `message_verifier`,
one constructor per return string of the Python function. -/
inductive Verdict where
  | CertNotTrusted
  | CertExpiredOrNotYetValid
  | CertRevoked (serial : Nat) (date : Int) (reason : String)
  | SignatureInvalid
  | MessageVerified
deriving DecidableEq

/-- Outcome of calling `message_verifier`: either a returned status value or
an uncaught Python exception propagating out of the call. -/
inductive VerifyResult where
  | verdict (v : Verdict)
  | raised (note : String)
deriving DecidableEq

/-- Whether a `VerifyResult` is a classified status value returned to the
caller (as opposed to an exception escaping the call). -/
def is_classified_verdict : VerifyResult → Bool
  | .verdict _ => true
  | .raised _ => false

/-- message_verifier(payload, ca).  The certificate is loaded with no
try/except around it, so a parse failure propagates as an exception; the
certificate signature check, the time-validity check against the ambient
clock `now`, the CRL lookup, and the payload signature check follow, each
short-circuiting with its status. -/
def message_verifier (payload : Payload) (ca : CertifyingAuthority) (now : Int) :
    VerifyResult :=
  match load_pem_x509_certificate payload.certificate with
  | none => .raised "ValueError: unable to load PEM certificate"
  | some cert =>
    if sig_verify ca.ca_pub_key cert.ca_signature cert.tbs then
      if cert.tbs.not_valid_before > now ∨ cert.tbs.not_valid_after < now then
        .verdict .CertExpiredOrNotYetValid
      else
        match dict_get ca.crl cert.tbs.serial_number with
        | some entry =>
          .verdict (.CertRevoked cert.tbs.serial_number entry.date entry.reason)
        | none =>
          if sig_verify cert.tbs.subject_public_key payload.signature payload.message then
            .verdict .MessageVerified
          else
            .verdict .SignatureInvalid
    else
      .verdict .CertNotTrusted

/-! ### The world: CA state plus fresh-name supplies and the clock -/

/-- Ambient state threaded through the stateful operations: the shared CA,
the fresh supplies standing in for randomness, and the ambient clock. -/
structure World where
  ca : CertifyingAuthority
  next_key : Nat
  next_serial : Nat
  clock : Int
deriving DecidableEq

/-- CertifyingAuthority.build_certificate(entity_id, entity_type,
entity_pub_key): builds the subject name, assigns a fresh serial, sets the
validity window [now, now + CERT_VALIDITY], signs the body with the root key,
records the result in the issuance ledger, and returns it. -/
def build_certificate (w : World) (entity_id : Nat) (entity_type : String)
    (entity_pub_key : Nat) : Certificate × World :=
  let certificate_number := w.next_serial
  let tbs : CertBody :=
    { serial_number := certificate_number
      subject_common_name := entity_type ++ "-" ++ Nat.repr entity_id
      issuer_common_name := "V2X-Root-CA"
      subject_public_key := entity_pub_key
      not_valid_before := w.clock
      not_valid_after := w.clock + CERT_VALIDITY }
  let cert : Certificate := { tbs := tbs, ca_signature := { key := w.ca.ca_key, data := tbs } }
  let vehicles0 :=
    match dict_get w.ca.ca_vehicles entity_id with
    | none => dict_insert w.ca.ca_vehicles entity_id []
    | some _ => w.ca.ca_vehicles
  let ca' :=
    if entity_type = "vehicle" then
      { w.ca with
        ca_vehicles :=
          dict_insert vehicles0 entity_id ((dict_get vehicles0 entity_id).getD [] ++ [cert]) }
    else
      { w.ca with
        ca_vehicles := vehicles0
        ca_infrastructures := dict_insert w.ca.ca_infrastructures entity_id cert }
  (cert, { w with ca := ca', next_serial := w.next_serial + 1 })

/-- CertifyingAuthority.add_revocation(serial_number, reason, issuer): keyed
insertion into the CRL stamped with the ambient clock reading `now`. -/
def add_revocation (ca : CertifyingAuthority) (serial_number : Nat)
    (reason issuer : String) (now : Int) : CertifyingAuthority :=
  { ca with
    crl := dict_insert ca.crl serial_number
      { issuer := issuer, date := now, reason := reason } }

/-! ### Canonical message serialization -/

/-- A message field map (Python dict of message fields). -/
abbrev FieldMap := List (String × String)

/-- Strict lexicographic order on character lists by code point, matching
Python string comparison on the key strings involved. -/
def str_list_lt : List Char → List Char → Bool
  | [], [] => false
  | [], _ :: _ => true
  | _ :: _, [] => false
  | a :: as, b :: bs =>
    if a.toNat < b.toNat then true
    else if b.toNat < a.toNat then false
    else str_list_lt as bs

/-- Total key comparison used by `sort_keys=True`. -/
def key_le (p q : String × String) : Bool := !(str_list_lt q.1.data p.1.data)

/-- Insert one field into a key-sorted list of fields. -/
def insort_field (p : String × String) : FieldMap → FieldMap
  | [] => [p]
  | q :: l => if key_le p q then p :: q :: l else q :: insort_field p l

/-- Sort the fields of a map by key (the effect of `sort_keys=True`). -/
def sort_fields : FieldMap → FieldMap
  | [] => []
  | p :: l => insort_field p (sort_fields l)

/-- Render one field as a compact JSON member. -/
def render_field (p : String × String) : String :=
  "\"" ++ p.1 ++ "\":\"" ++ p.2 ++ "\""

/-- Join rendered fields with the compact item separator. -/
def join_fields : FieldMap → String
  | [] => ""
  | [p] => render_field p
  | p :: q :: l => render_field p ++ "," ++ join_fields (q :: l)

/-- json.dumps(data, sort_keys=True, separators=(",", ":")) on a string-valued
field map: sorted keys, compact separators, braced object. -/
def json_dumps_sorted (data : FieldMap) : String :=
  "\x7b" ++ join_fields (sort_fields data) ++ "\x7d"

/-- The security timestamp string stamped onto outgoing messages: the ambient
clock reading, rendered (modelling `datetime.now(timezone.utc).isoformat()`). -/
def security_timestamp_value (t : Int) : String := t.repr

/-! ### Vehicle hardware security module -/

/-- VehicleHardwareSecurityModule state (the CA reference is threaded through
the `World` instead of being stored). -/
structure VehicleHardwareSecurityModule where
  vehicle_id : Nat
  index_number : Nat
  message_count : Nat
  current_private_key : Option Nat
  current_certificate : Option Certificate
  private_key : List Nat
  certificate : List Certificate
deriving DecidableEq

/-- VehicleHardwareSecurityModule.__init__(vehicle_id, ca). -/
def VehicleHardwareSecurityModule.init (vehicle_id : Nat) :
    VehicleHardwareSecurityModule :=
  { vehicle_id := vehicle_id
    index_number := 0
    message_count := 0
    current_private_key := none
    current_certificate := none
    private_key := []
    certificate := [] }

/-- The body of the `for _ in range(settings.NO_OF_VEH_CERTS)` loop of
`generate_vehicle_cert`, iterated `n` times: generate a fresh key pair,
request a certificate for it, append both. -/
def gen_certs_loop :
    Nat → VehicleHardwareSecurityModule → World →
      VehicleHardwareSecurityModule × World
  | 0, hsm, w => (hsm, w)
  | n + 1, hsm, w =>
    let private_key := w.next_key
    let w' := { w with next_key := w.next_key + 1 }
    let r := build_certificate w' hsm.vehicle_id "vehicle" private_key
    gen_certs_loop n
      { hsm with
        private_key := hsm.private_key ++ [private_key]
        certificate := hsm.certificate ++ [r.1] }
      r.2

/-- VehicleHardwareSecurityModule.generate_vehicle_cert: generate the batch,
then set the current key and certificate from `index_number`. -/
def VehicleHardwareSecurityModule.generate_vehicle_cert
    (hsm : VehicleHardwareSecurityModule) (w : World) :
    VehicleHardwareSecurityModule × World :=
  let r := gen_certs_loop NO_OF_VEH_CERTS hsm w
  ({ r.1 with
     current_private_key := r.1.private_key[r.1.index_number]?
     current_certificate := r.1.certificate[r.1.index_number]? }, r.2)

/-- VehicleHardwareSecurityModule.certificate_rotation: regenerate the whole
batch when the last slot is in use, otherwise advance the index when the
message count is a nonzero multiple of NO_OF_MSG_CERT_ROT - 1. -/
def VehicleHardwareSecurityModule.certificate_rotation
    (hsm : VehicleHardwareSecurityModule) (w : World) :
    VehicleHardwareSecurityModule × World :=
  if hsm.index_number = NO_OF_VEH_CERTS - 1 then
    VehicleHardwareSecurityModule.generate_vehicle_cert
      { hsm with
        private_key := []
        certificate := []
        message_count := 0
        index_number := 0
        current_private_key := none
        current_certificate := none } w
  else
    if hsm.message_count % (NO_OF_MSG_CERT_ROT - 1) = 0 ∧ hsm.message_count ≠ 0 then
      ({ hsm with
         index_number := hsm.index_number + 1
         message_count := 0
         current_private_key := hsm.private_key[hsm.index_number + 1]?
         current_certificate := hsm.certificate[hsm.index_number + 1]? }, w)
    else
      (hsm, w)

/-- VehicleHardwareSecurityModule.prepare_message(data): rotate, copy the
caller map and stamp the security timestamp, bump the message count,
serialize canonically, sign, and assemble the payload.  `none` models the
crash that signing with no active credential would be. -/
def VehicleHardwareSecurityModule.prepare_message
    (hsm : VehicleHardwareSecurityModule) (w : World) (data : FieldMap) :
    Option (Payload × VehicleHardwareSecurityModule × World) :=
  let r := VehicleHardwareSecurityModule.certificate_rotation hsm w
  let hsm' := r.1
  let w' := r.2
  let data' := dict_insert data "security_timestamp" (security_timestamp_value w'.clock)
  let hsm'' := { hsm' with message_count := hsm'.message_count + 1 }
  match hsm''.current_private_key, hsm''.current_certificate with
  | some key, some cert =>
    let message := json_dumps_sorted data'
    some ({ message := message
            signature := { key := key, data := message }
            certificate := .pem cert }, hsm'', w')
  | _, _ => none

/-! ### Infrastructure hardware security module -/

/-- InfrastructureHardwareSecurityModule state. -/
structure InfrastructureHardwareSecurityModule where
  infra_id : Nat
  private_key : Option Nat
  certificate : Option Certificate
  message_count : Nat
deriving DecidableEq

/-- InfrastructureHardwareSecurityModule.__init__(infra_id, ca). -/
def InfrastructureHardwareSecurityModule.init (infra_id : Nat) :
    InfrastructureHardwareSecurityModule :=
  { infra_id := infra_id
    private_key := none
    certificate := none
    message_count := 0 }

/-- InfrastructureHardwareSecurityModule.generate_infra_cert. -/
def InfrastructureHardwareSecurityModule.generate_infra_cert
    (ihsm : InfrastructureHardwareSecurityModule) (w : World) :
    InfrastructureHardwareSecurityModule × World :=
  let private_key := w.next_key
  let w' := { w with next_key := w.next_key + 1 }
  let r := build_certificate w' ihsm.infra_id "infrastructure" private_key
  ({ ihsm with private_key := some private_key, certificate := some r.1 }, r.2)

/-- InfrastructureHardwareSecurityModule.prepare_message(data): bump the
count, stamp the timestamp onto a copy, serialize, sign with the single
static credential. -/
def InfrastructureHardwareSecurityModule.prepare_message
    (ihsm : InfrastructureHardwareSecurityModule) (w : World) (data : FieldMap) :
    Option (Payload × InfrastructureHardwareSecurityModule × World) :=
  let ihsm' := { ihsm with message_count := ihsm.message_count + 1 }
  let data' := dict_insert data "security_timestamp" (security_timestamp_value w.clock)
  match ihsm'.private_key, ihsm'.certificate with
  | some key, some cert =>
    let message := json_dumps_sorted data'
    some ({ message := message
            signature := { key := key, data := message }
            certificate := .pem cert }, ihsm', w)
  | _, _ => none

/-! ### Derived helper definitions used by the theorems -/

/-- The certificate produced for loop position `i` of a vehicle batch started
from serial supply `serial`, key supply `key`, clock `clk`, and root key
`ca_key`. -/
def mk_veh_cert (serial key : Nat) (clk : Int) (ca_key : Nat) (vid : Nat) :
    Certificate :=
  let tbs : CertBody :=
    { serial_number := serial
      subject_common_name := "vehicle" ++ "-" ++ Nat.repr vid
      issuer_common_name := "V2X-Root-CA"
      subject_public_key := key
      not_valid_before := clk
      not_valid_after := clk + CERT_VALIDITY }
  { tbs := tbs, ca_signature := { key := ca_key, data := tbs } }

/-- A fresh vehicle holder with its first generated batch. -/
def first_batch (w : World) (vid : Nat) : VehicleHardwareSecurityModule × World :=
  VehicleHardwareSecurityModule.generate_vehicle_cert
    (VehicleHardwareSecurityModule.init vid) w

/-- Iterate `prepare_message` `n` times with the same caller field map,
collecting the payloads in order. -/
def prepare_iter :
    Nat → VehicleHardwareSecurityModule → World → FieldMap →
      Option (List Payload × VehicleHardwareSecurityModule × World)
  | 0, hsm, w, _ => some ([], hsm, w)
  | n + 1, hsm, w, data =>
    match VehicleHardwareSecurityModule.prepare_message hsm w data with
    | none => none
    | some (p, hsm', w') =>
      match prepare_iter n hsm' w' data with
      | none => none
      | some (ps, hsm'', w'') => some (p :: ps, hsm'', w'')

/-- Membership of a certificate anywhere in the issuance ledger of the CA
(vehicle lists or infrastructure entries). -/
def in_issuance_ledger (ca : CertifyingAuthority) (c : Certificate) : Bool :=
  ca.ca_vehicles.any (fun e => e.2.contains c) ||
    ca.ca_infrastructures.any (fun e => e.2 == c)

/-! ### Concrete sample data for closed instances -/

/-- A freshly initialised root authority with an empty ledger and CRL. -/
def sample_ca : CertifyingAuthority :=
  { ca_key := 0, ca_vehicles := [], ca_infrastructures := [], crl := [] }

/-- A starting world: the sample authority, key supply at 10, serial supply at
20, clock at 0. -/
def sample_world : World :=
  { ca := sample_ca, next_key := 10, next_serial := 20, clock := 0 }

/-- A certificate the sample authority would issue: serial 5, subject key 2,
window [0, 600], signed by root key 0. -/
def sample_cert : Certificate := mk_veh_cert 5 2 0 0 1

/-- A well-formed payload signed with the key matching `sample_cert`. -/
def sample_payload : Payload :=
  { message := "m", signature := { key := 2, data := "m" }, certificate := .pem sample_cert }

/-- The sample authority after revoking serial 5 at time 50. -/
def sample_revoked_ca : CertifyingAuthority :=
  add_revocation sample_ca 5 "key compromise" "V2X-Root-CA" 50

/-! ### Association-list dictionary lemmas -/

/-- Looking up the key just assigned returns the assigned value. -/
theorem dict_get_insert_self {κ β : Type} [DecidableEq κ]
    (m : List (κ × β)) (k : κ) (v : β) :
    dict_get (dict_insert m k v) k = some v := by
  induction m with
  | nil => simp [dict_insert, dict_get]
  | cons e m ih =>
    obtain ⟨k', v'⟩ := e
    by_cases h : k' = k <;> simp [dict_insert, dict_get, h, ih]


/-- Assigning one key leaves the bindings of all other keys unchanged. -/
theorem dict_get_insert_ne {κ β : Type} [DecidableEq κ]
    (m : List (κ × β)) (k k' : κ) (v : β) (h : k' ≠ k) :
    dict_get (dict_insert m k v) k' = dict_get m k' := by
  have h' : k ≠ k' := Ne.symm h
  induction m with
  | nil => simp [dict_insert, dict_get, h']
  | cons e m ih =>
    obtain ⟨k₀, v₀⟩ := e
    by_cases h0 : k₀ = k
    · subst h0
      simp [dict_insert, dict_get, h']
    · simp [dict_insert, dict_get, h0, ih]

/-- A key bound by no entry of the dictionary looks up to nothing. -/
theorem dict_get_eq_none {κ β : Type} [DecidableEq κ]
    (m : List (κ × β)) (k : κ) (h : ∀ e ∈ m, e.1 ≠ k) :
    dict_get m k = none := by
  induction m with
  | nil => rfl
  | cons e m ih =>
    obtain ⟨k', v'⟩ := e
    have h1 : k' ≠ k := h (k', v') (by simp)
    simp only [dict_get, if_neg h1]
    exact ih fun e he => h e (List.mem_cons_of_mem _ he)

/-! ### Certificate issuance lemmas -/

/-- The certificate built for a vehicle entity, in closed form. -/
theorem build_certificate_vehicle_fst (w : World) (vid pk : Nat) :
    (build_certificate w vid "vehicle" pk).1 =
      mk_veh_cert w.next_serial pk w.clock w.ca.ca_key vid := rfl

/-- Issuance consumes one serial and leaves the key supply, the clock, the
root key, and the CRL unchanged. -/
theorem build_certificate_world (w : World) (eid : Nat) (ty : String) (pk : Nat) :
    (build_certificate w eid ty pk).2.next_key = w.next_key ∧
    (build_certificate w eid ty pk).2.next_serial = w.next_serial + 1 ∧
    (build_certificate w eid ty pk).2.clock = w.clock ∧
    (build_certificate w eid ty pk).2.ca.ca_key = w.ca.ca_key ∧
    (build_certificate w eid ty pk).2.ca.crl = w.ca.crl := by
  by_cases h : ty = "vehicle" <;>
    simp [build_certificate, h, CertifyingAuthority.ca_pub_key]

/-! ### Rotation state-machine lemmas -/

/-- Splitting off the first element of a shifted key range. -/
theorem shift_map_keys (a n : Nat) :
    (List.range (n + 1)).map (fun i => a + i) =
      a :: (List.range n).map (fun i => a + 1 + i) := by
  simp only [List.range_succ_eq_map, List.map_cons, List.map_map, Nat.add_zero]
  congr 1
  apply List.map_congr_left
  intro i _
  simp only [Function.comp_apply, Nat.succ_eq_add_one]
  omega

/-- Splitting off the first certificate of a fresh batch. -/
theorem shift_map_certs (w : World) (vid n : Nat) :
    (List.range (n + 1)).map (fun i =>
        mk_veh_cert (w.next_serial + i) (w.next_key + i) w.clock w.ca.ca_key vid) =
      mk_veh_cert w.next_serial w.next_key w.clock w.ca.ca_key vid ::
        (List.range n).map (fun i =>
          mk_veh_cert (w.next_serial + 1 + i) (w.next_key + 1 + i) w.clock w.ca.ca_key vid) := by
  simp only [List.range_succ_eq_map, List.map_cons, List.map_map, Nat.add_zero]
  congr 1
  apply List.map_congr_left
  intro i _
  simp only [Function.comp_apply, Nat.succ_eq_add_one]
  have e1 : w.next_serial + (i + 1) = w.next_serial + 1 + i := by omega
  have e2 : w.next_key + (i + 1) = w.next_key + 1 + i := by omega
  rw [e1, e2]

theorem gen_certs_loop_spec (n : Nat) :
    ∀ (hsm : VehicleHardwareSecurityModule) (w : World),
    (gen_certs_loop n hsm w).1 =
      { hsm with
        private_key := hsm.private_key ++ (List.range n).map (fun i => w.next_key + i)
        certificate := hsm.certificate ++ (List.range n).map (fun i =>
          mk_veh_cert (w.next_serial + i) (w.next_key + i) w.clock w.ca.ca_key
            hsm.vehicle_id) } ∧
    (gen_certs_loop n hsm w).2.next_key = w.next_key + n ∧
    (gen_certs_loop n hsm w).2.next_serial = w.next_serial + n ∧
    (gen_certs_loop n hsm w).2.clock = w.clock ∧
    (gen_certs_loop n hsm w).2.ca.ca_key = w.ca.ca_key ∧
    (gen_certs_loop n hsm w).2.ca.crl = w.ca.crl := by
  induction n with
  | zero => intro hsm w; simp [gen_certs_loop]
  | succ n ih =>
    intro hsm w
    have hstep : gen_certs_loop (n + 1) hsm w =
        gen_certs_loop n
          { hsm with
            private_key := hsm.private_key ++ [w.next_key]
            certificate := hsm.certificate ++
              [(build_certificate { w with next_key := w.next_key + 1 }
                  hsm.vehicle_id "vehicle" w.next_key).1] }
          (build_certificate { w with next_key := w.next_key + 1 }
            hsm.vehicle_id "vehicle" w.next_key).2 := rfl
    obtain ⟨hbk, hbs, hbc, hbca, hbcrl⟩ :=
      build_certificate_world { w with next_key := w.next_key + 1 }
        hsm.vehicle_id "vehicle" w.next_key
    have hbk' : (build_certificate { w with next_key := w.next_key + 1 }
        hsm.vehicle_id "vehicle" w.next_key).2.next_key = w.next_key + 1 := hbk
    have hbs' : (build_certificate { w with next_key := w.next_key + 1 }
        hsm.vehicle_id "vehicle" w.next_key).2.next_serial = w.next_serial + 1 := hbs
    have hbc' : (build_certificate { w with next_key := w.next_key + 1 }
        hsm.vehicle_id "vehicle" w.next_key).2.clock = w.clock := hbc
    have hbca' : (build_certificate { w with next_key := w.next_key + 1 }
        hsm.vehicle_id "vehicle" w.next_key).2.ca.ca_key = w.ca.ca_key := hbca
    have hbcrl' : (build_certificate { w with next_key := w.next_key + 1 }
        hsm.vehicle_id "vehicle" w.next_key).2.ca.crl = w.ca.crl := hbcrl
    have hfst : (build_certificate { w with next_key := w.next_key + 1 }
        hsm.vehicle_id "vehicle" w.next_key).1 =
        mk_veh_cert w.next_serial w.next_key w.clock w.ca.ca_key hsm.vehicle_id :=
      build_certificate_vehicle_fst { w with next_key := w.next_key + 1 }
        hsm.vehicle_id w.next_key
    obtain ⟨ih1, ih2, ih3, ih4, ih5, ih6⟩ :=
      ih { hsm with
            private_key := hsm.private_key ++ [w.next_key]
            certificate := hsm.certificate ++
              [(build_certificate { w with next_key := w.next_key + 1 }
                  hsm.vehicle_id "vehicle" w.next_key).1] }
         (build_certificate { w with next_key := w.next_key + 1 }
            hsm.vehicle_id "vehicle" w.next_key).2
    refine ⟨?_, ?_, ?_, ?_, ?_, ?_⟩
    · rw [hstep, ih1]
      simp only [hbk', hbs', hbc', hbca', hfst]
      rw [shift_map_keys, shift_map_certs]
      simp [List.append_assoc]
    · rw [hstep, ih2, hbk']; omega
    · rw [hstep, ih3, hbs']; omega
    · rw [hstep, ih4, hbc']
    · rw [hstep, ih5, hbca']
    · rw [hstep, ih6, hbcrl']

/-- Closed form of `generate_vehicle_cert` on a holder with an empty pool
and index 0 (a fresh holder, or one just cleared by rotation). -/
theorem generate_vehicle_cert_spec (hsm : VehicleHardwareSecurityModule) (w : World)
    (h0 : hsm.index_number = 0) (h1 : hsm.private_key = [])
    (h2 : hsm.certificate = []) :
    (hsm.generate_vehicle_cert w).1 =
      { hsm with
        private_key := (List.range NO_OF_VEH_CERTS).map (fun i => w.next_key + i)
        certificate := (List.range NO_OF_VEH_CERTS).map (fun i =>
          mk_veh_cert (w.next_serial + i) (w.next_key + i) w.clock w.ca.ca_key
            hsm.vehicle_id)
        current_private_key := some w.next_key
        current_certificate := some (mk_veh_cert w.next_serial w.next_key w.clock
          w.ca.ca_key hsm.vehicle_id) } ∧
    (hsm.generate_vehicle_cert w).2.next_key = w.next_key + NO_OF_VEH_CERTS ∧
    (hsm.generate_vehicle_cert w).2.next_serial = w.next_serial + NO_OF_VEH_CERTS ∧
    (hsm.generate_vehicle_cert w).2.clock = w.clock ∧
    (hsm.generate_vehicle_cert w).2.ca.ca_key = w.ca.ca_key ∧
    (hsm.generate_vehicle_cert w).2.ca.crl = w.ca.crl := by
  obtain ⟨l1, l2, l3, l4, l5, l6⟩ := gen_certs_loop_spec NO_OF_VEH_CERTS hsm w
  refine ⟨?_, l2, l3, l4, l5, l6⟩
  show { (gen_certs_loop NO_OF_VEH_CERTS hsm w).1 with
         current_private_key := (gen_certs_loop NO_OF_VEH_CERTS hsm w).1.private_key[
           (gen_certs_loop NO_OF_VEH_CERTS hsm w).1.index_number]?
         current_certificate := (gen_certs_loop NO_OF_VEH_CERTS hsm w).1.certificate[
           (gen_certs_loop NO_OF_VEH_CERTS hsm w).1.index_number]? } = _
  rw [l1]
  simp only [h0, h1, h2, List.nil_append]
  have hn : 0 < NO_OF_VEH_CERTS := by decide
  simp [List.getElem?_map, List.getElem?_range hn]

/-- Rotation does nothing while the batch is not exhausted and the message
count is zero or not a multiple of NO_OF_MSG_CERT_ROT - 1. -/
theorem certificate_rotation_no_rot (hsm : VehicleHardwareSecurityModule) (w : World)
    (h99 : hsm.index_number ≠ NO_OF_VEH_CERTS - 1)
    (hc : hsm.message_count = 0 ∨
      hsm.message_count % (NO_OF_MSG_CERT_ROT - 1) ≠ 0) :
    hsm.certificate_rotation w = (hsm, w) := by
  unfold VehicleHardwareSecurityModule.certificate_rotation
  rw [if_neg h99, if_neg]
  rintro ⟨hmod, hne⟩
  rcases hc with h | h
  · exact hne h
  · exact h hmod

/-- Rotation advances the index by one when the count is a nonzero multiple
of NO_OF_MSG_CERT_ROT - 1 and the batch is not exhausted. -/
theorem certificate_rotation_advance (hsm : VehicleHardwareSecurityModule) (w : World)
    (h99 : hsm.index_number ≠ NO_OF_VEH_CERTS - 1)
    (hmod : hsm.message_count % (NO_OF_MSG_CERT_ROT - 1) = 0)
    (hne : hsm.message_count ≠ 0) :
    hsm.certificate_rotation w =
      ({ hsm with
         index_number := hsm.index_number + 1
         message_count := 0
         current_private_key := hsm.private_key[hsm.index_number + 1]?
         current_certificate := hsm.certificate[hsm.index_number + 1]? }, w) := by
  unfold VehicleHardwareSecurityModule.certificate_rotation
  rw [if_neg h99, if_pos ⟨hmod, hne⟩]

/-- Rotation regenerates the whole pool when the last slot is in use. -/
theorem certificate_rotation_regen (hsm : VehicleHardwareSecurityModule) (w : World)
    (h : hsm.index_number = NO_OF_VEH_CERTS - 1) :
    hsm.certificate_rotation w =
      VehicleHardwareSecurityModule.generate_vehicle_cert
        { hsm with
          private_key := []
          certificate := []
          message_count := 0
          index_number := 0
          current_private_key := none
          current_certificate := none } w := by
  unfold VehicleHardwareSecurityModule.certificate_rotation
  rw [if_pos h]

/-- A send that triggers no rotation: signs with the current credential and
bumps the count. -/
theorem prepare_message_no_rot (hsm : VehicleHardwareSecurityModule) (w : World)
    (data : FieldMap) (k : Nat) (c : Certificate)
    (h99 : hsm.index_number ≠ NO_OF_VEH_CERTS - 1)
    (hc : hsm.message_count = 0 ∨
      hsm.message_count % (NO_OF_MSG_CERT_ROT - 1) ≠ 0)
    (hk : hsm.current_private_key = some k)
    (hcert : hsm.current_certificate = some c) :
    hsm.prepare_message w data =
      some
        ({ message := json_dumps_sorted (dict_insert data "security_timestamp"
             (security_timestamp_value w.clock))
           signature := { key := k, data := json_dumps_sorted (dict_insert data
             "security_timestamp" (security_timestamp_value w.clock)) }
           certificate := .pem c },
         { hsm with message_count := hsm.message_count + 1 }, w) := by
  unfold VehicleHardwareSecurityModule.prepare_message
  rw [certificate_rotation_no_rot hsm w h99 hc]
  simp [hk, hcert]

/-- A send that triggers an index advance: rotates to the next credential
before signing. -/
theorem prepare_message_advance (hsm : VehicleHardwareSecurityModule) (w : World)
    (data : FieldMap) (k : Nat) (c : Certificate)
    (h99 : hsm.index_number ≠ NO_OF_VEH_CERTS - 1)
    (hmod : hsm.message_count % (NO_OF_MSG_CERT_ROT - 1) = 0)
    (hne : hsm.message_count ≠ 0)
    (hk : hsm.private_key[hsm.index_number + 1]? = some k)
    (hcert : hsm.certificate[hsm.index_number + 1]? = some c) :
    hsm.prepare_message w data =
      some
        ({ message := json_dumps_sorted (dict_insert data "security_timestamp"
             (security_timestamp_value w.clock))
           signature := { key := k, data := json_dumps_sorted (dict_insert data
             "security_timestamp" (security_timestamp_value w.clock)) }
           certificate := .pem c },
         { hsm with
           index_number := hsm.index_number + 1
           message_count := 1
           current_private_key := some k
           current_certificate := some c }, w) := by
  unfold VehicleHardwareSecurityModule.prepare_message
  rw [certificate_rotation_advance hsm w h99 hmod hne]
  simp [hk, hcert]

/-- Iterating sends that trigger no rotation: all payloads are signed with
the same credential and only the count moves. -/
theorem prepare_iter_no_rot (n : Nat) :
    ∀ (hsm : VehicleHardwareSecurityModule) (w : World) (data : FieldMap)
      (k : Nat) (c : Certificate),
    hsm.index_number ≠ NO_OF_VEH_CERTS - 1 →
    hsm.current_private_key = some k →
    hsm.current_certificate = some c →
    hsm.message_count + n ≤ NO_OF_MSG_CERT_ROT - 1 →
    prepare_iter n hsm w data =
      some
        (List.replicate n
          { message := json_dumps_sorted (dict_insert data "security_timestamp"
              (security_timestamp_value w.clock))
            signature := { key := k, data := json_dumps_sorted (dict_insert data
              "security_timestamp" (security_timestamp_value w.clock)) }
            certificate := .pem c },
         { hsm with message_count := hsm.message_count + n }, w) := by
  induction n with
  | zero =>
    intro hsm w data k c _ _ _ _
    simp [prepare_iter]
  | succ n ih =>
    intro hsm w data k c h99 hk hc hcount
    have hlt : hsm.message_count < NO_OF_MSG_CERT_ROT - 1 := by omega
    have hguard : hsm.message_count = 0 ∨
        hsm.message_count % (NO_OF_MSG_CERT_ROT - 1) ≠ 0 := by
      by_cases h0 : hsm.message_count = 0
      · exact Or.inl h0
      · right
        rw [Nat.mod_eq_of_lt hlt]
        exact h0
    have hstep := prepare_message_no_rot hsm w data k c h99 hguard hk hc
    have hrec := ih { hsm with message_count := hsm.message_count + 1 } w data k c
      (by simpa using h99) (by simpa using hk) (by simpa using hc)
      (by simp; omega)
    show (match hsm.prepare_message w data with
      | none => none
      | some (p, hsm', w') =>
        match prepare_iter n hsm' w' data with
        | none => none
        | some (ps, hsm'', w'') => some (p :: ps, hsm'', w'')) = _
    rw [hstep]
    dsimp only
    rw [hrec]
    dsimp only
    simp only [List.replicate_succ, Option.some.injEq, Prod.mk.injEq,
      VehicleHardwareSecurityModule.mk.injEq]
    refine ⟨trivial, ⟨trivial, trivial, by omega, trivial, trivial, trivial, trivial⟩, trivial⟩

/-- Iterated sending splits along addition of the iteration counts. -/
theorem prepare_iter_append (m n : Nat) :
    ∀ (hsm : VehicleHardwareSecurityModule) (w : World) (data : FieldMap),
    prepare_iter (m + n) hsm w data =
      match prepare_iter m hsm w data with
      | none => none
      | some (ps, hsm', w') =>
        match prepare_iter n hsm' w' data with
        | none => none
        | some (qs, hsm'', w'') => some (ps ++ qs, hsm'', w'') := by
  induction m with
  | zero =>
    intro hsm w data
    rw [Nat.zero_add]
    dsimp only [prepare_iter]
    cases h : prepare_iter n hsm w data with
    | none => rfl
    | some r =>
      obtain ⟨qs, hsm'', w''⟩ := r
      rfl
  | succ m ih =>
    intro hsm w data
    have hshape : m + 1 + n = (m + n) + 1 := by omega
    rw [hshape]
    have hiter1 : prepare_iter (m + 1) hsm w data =
        match hsm.prepare_message w data with
        | none => none
        | some (p, hsm', w') =>
          match prepare_iter m hsm' w' data with
          | none => none
          | some (ps, hsm'', w'') => some (p :: ps, hsm'', w'') := rfl
    show (match hsm.prepare_message w data with
      | none => none
      | some (p, hsm', w') =>
        match prepare_iter (m + n) hsm' w' data with
        | none => none
        | some (ps, hsm'', w'') => some (p :: ps, hsm'', w'')) = _
    rw [hiter1]
    cases hp : hsm.prepare_message w data with
    | none => rfl
    | some r =>
      obtain ⟨p, hsm1, w1⟩ := r
      dsimp only
      rw [ih hsm1 w1 data]
      cases hm : prepare_iter m hsm1 w1 data with
      | none => rfl
      | some r2 =>
        obtain ⟨ps, hsm2, w2⟩ := r2
        dsimp only
        cases hn : prepare_iter n hsm2 w2 data with
        | none => rfl
        | some r3 =>
          obtain ⟨qs, hsm3, w3⟩ := r3
          rfl

/-- C1: for a vehicle holder with a freshly generated batch (N = 100,
R = 10), the first nine prepare_message calls all sign with the credential at
index 0 (the count reaching 9), and the tenth call advances the active index
to 1 before signing, so payload 10 carries a different certificate from
payloads 1 through 9 (the rotation test is count mod (R - 1) == 0 guarded by
count != 0). -/
theorem rotation_after_nine_messages (w : World) (vid : Nat) (data : FieldMap) :
    ∃ (ps : List Payload) (hsm' : VehicleHardwareSecurityModule),
      prepare_iter 10 (first_batch w vid).1 (first_batch w vid).2 data =
        some (ps, hsm', (first_batch w vid).2) ∧
      ps.length = 10 ∧
      (∀ j : Nat, j < 9 →
        ps[j]?.map Payload.certificate =
          some (.pem (mk_veh_cert w.next_serial w.next_key w.clock w.ca.ca_key vid))) ∧
      ps[9]?.map Payload.certificate =
        some (.pem (mk_veh_cert (w.next_serial + 1) (w.next_key + 1) w.clock
          w.ca.ca_key vid)) ∧
      mk_veh_cert (w.next_serial + 1) (w.next_key + 1) w.clock w.ca.ca_key vid ≠
        mk_veh_cert w.next_serial w.next_key w.clock w.ca.ca_key vid ∧
      hsm'.index_number = 1 ∧ hsm'.message_count = 1 := by
  obtain ⟨g1, g2, g3, g4, g5, g6⟩ :=
    generate_vehicle_cert_spec (VehicleHardwareSecurityModule.init vid) w rfl rfl rfl
  have g1' : (first_batch w vid).1 =
      { VehicleHardwareSecurityModule.init vid with
        private_key := (List.range NO_OF_VEH_CERTS).map (fun i => w.next_key + i)
        certificate := (List.range NO_OF_VEH_CERTS).map (fun i =>
          mk_veh_cert (w.next_serial + i) (w.next_key + i) w.clock w.ca.ca_key
            (VehicleHardwareSecurityModule.init vid).vehicle_id)
        current_private_key := some w.next_key
        current_certificate := some (mk_veh_cert w.next_serial w.next_key w.clock
          w.ca.ca_key (VehicleHardwareSecurityModule.init vid).vehicle_id) } := g1
  have hvid : (VehicleHardwareSecurityModule.init vid).vehicle_id = vid := rfl
  rw [hvid] at g1'
  have hBidx : (first_batch w vid).1.index_number = 0 := by
    rw [g1']
    rfl
  have hBcnt : (first_batch w vid).1.message_count = 0 := by
    rw [g1']
    rfl
  have hBk : (first_batch w vid).1.current_private_key = some w.next_key := by
    rw [g1']
  have hBc : (first_batch w vid).1.current_certificate =
      some (mk_veh_cert w.next_serial w.next_key w.clock w.ca.ca_key vid) := by
    rw [g1']
  have h99 : (first_batch w vid).1.index_number ≠ NO_OF_VEH_CERTS - 1 := by
    rw [hBidx]; decide
  have h9 := prepare_iter_no_rot 9 (first_batch w vid).1 (first_batch w vid).2 data
    w.next_key (mk_veh_cert w.next_serial w.next_key w.clock w.ca.ca_key vid)
    h99 hBk hBc (by rw [hBcnt]; decide)
  -- the state reached after nine sends
  have h9' : prepare_iter 9 (first_batch w vid).1 (first_batch w vid).2 data =
      some
        (List.replicate 9
          { message := json_dumps_sorted (dict_insert data "security_timestamp"
              (security_timestamp_value (first_batch w vid).2.clock))
            signature := { key := w.next_key, data := json_dumps_sorted (dict_insert data
              "security_timestamp" (security_timestamp_value (first_batch w vid).2.clock)) }
            certificate := .pem (mk_veh_cert w.next_serial w.next_key w.clock
              w.ca.ca_key vid) },
         { (first_batch w vid).1 with message_count := 9 }, (first_batch w vid).2) := by
    rw [h9, hBcnt]
  -- the tenth send rotates to slot 1 first
  have hidx1 : ({ (first_batch w vid).1 with message_count := 9 }).index_number = 0 := hBidx
  have hgetk : ({ (first_batch w vid).1 with
      message_count := 9 }).private_key[({ (first_batch w vid).1 with
        message_count := 9 }).index_number + 1]? = some (w.next_key + 1) := by
    have : ({ (first_batch w vid).1 with message_count := 9 }).private_key =
        (List.range NO_OF_VEH_CERTS).map (fun i => w.next_key + i) := by
      rw [g1']
    rw [this, hidx1]
    have h1 : (1 : Nat) < NO_OF_VEH_CERTS := by decide
    simp [List.getElem?_map, List.getElem?_range h1]
  have hgetc : ({ (first_batch w vid).1 with
      message_count := 9 }).certificate[({ (first_batch w vid).1 with
        message_count := 9 }).index_number + 1]? =
      some (mk_veh_cert (w.next_serial + 1) (w.next_key + 1) w.clock w.ca.ca_key vid) := by
    have : ({ (first_batch w vid).1 with message_count := 9 }).certificate =
        (List.range NO_OF_VEH_CERTS).map (fun i =>
          mk_veh_cert (w.next_serial + i) (w.next_key + i) w.clock w.ca.ca_key vid) := by
      rw [g1']
    rw [this, hidx1]
    have h1 : (1 : Nat) < NO_OF_VEH_CERTS := by decide
    simp [List.getElem?_map, List.getElem?_range h1]
  have h10 := prepare_message_advance
    { (first_batch w vid).1 with message_count := 9 } (first_batch w vid).2 data
    (w.next_key + 1)
    (mk_veh_cert (w.next_serial + 1) (w.next_key + 1) w.clock w.ca.ca_key vid)
    (by rw [hidx1]; decide)
    (by show (9 : Nat) % (NO_OF_MSG_CERT_ROT - 1) = 0; decide)
    (by show (9 : Nat) ≠ 0; decide) hgetk hgetc
  have hsplit := prepare_iter_append 9 1 (first_batch w vid).1 (first_batch w vid).2 data
  have hone : prepare_iter 1 ({ (first_batch w vid).1 with message_count := 9 })
      (first_batch w vid).2 data =
      some
        ([{ message := json_dumps_sorted (dict_insert data "security_timestamp"
              (security_timestamp_value (first_batch w vid).2.clock))
            signature := { key := w.next_key + 1, data := json_dumps_sorted (dict_insert
              data "security_timestamp"
              (security_timestamp_value (first_batch w vid).2.clock)) }
            certificate := .pem (mk_veh_cert (w.next_serial + 1) (w.next_key + 1)
              w.clock w.ca.ca_key vid) }],
         { (first_batch w vid).1 with
           index_number := 1
           message_count := 1
           current_private_key := some (w.next_key + 1)
           current_certificate := some (mk_veh_cert (w.next_serial + 1)
             (w.next_key + 1) w.clock w.ca.ca_key vid) },
         (first_batch w vid).2) := by
    show (match VehicleHardwareSecurityModule.prepare_message
        ({ (first_batch w vid).1 with message_count := 9 }) (first_batch w vid).2 data with
      | none => none
      | some (p, hsm', w') =>
        match prepare_iter 0 hsm' w' data with
        | none => none
        | some (ps, hsm'', w'') => some (p :: ps, hsm'', w'')) = _
    rw [h10]
    rfl
  have hall : prepare_iter 10 (first_batch w vid).1 (first_batch w vid).2 data =
      some
        (List.replicate 9
          { message := json_dumps_sorted (dict_insert data "security_timestamp"
              (security_timestamp_value (first_batch w vid).2.clock))
            signature := { key := w.next_key, data := json_dumps_sorted (dict_insert data
              "security_timestamp" (security_timestamp_value (first_batch w vid).2.clock)) }
            certificate := .pem (mk_veh_cert w.next_serial w.next_key w.clock
              w.ca.ca_key vid) } ++
          [{ message := json_dumps_sorted (dict_insert data "security_timestamp"
              (security_timestamp_value (first_batch w vid).2.clock))
             signature := { key := w.next_key + 1, data := json_dumps_sorted (dict_insert
               data "security_timestamp"
               (security_timestamp_value (first_batch w vid).2.clock)) }
             certificate := .pem (mk_veh_cert (w.next_serial + 1) (w.next_key + 1)
               w.clock w.ca.ca_key vid) }],
         { (first_batch w vid).1 with
           index_number := 1
           message_count := 1
           current_private_key := some (w.next_key + 1)
           current_certificate := some (mk_veh_cert (w.next_serial + 1)
             (w.next_key + 1) w.clock w.ca.ca_key vid) },
         (first_batch w vid).2) := by
    have hten : (10 : Nat) = 9 + 1 := rfl
    rw [hten, hsplit, h9']
    dsimp only
    rw [hone]
  refine ⟨_, _, hall, ?_, ?_, ?_, ?_, ?_, ?_⟩
  · simp
  · intro j hj
    rw [List.getElem?_append]
    simp only [List.length_replicate, hj, if_pos, List.getElem?_replicate]
    rfl
  · rw [List.getElem?_append]
    simp only [List.length_replicate]
    norm_num
  · have hne : w.next_serial + 1 ≠ w.next_serial := by omega
    simp [mk_veh_cert, Certificate.mk.injEq, CertBody.mk.injEq, hne]
  · rfl
  · rfl

/-- Witness for C1 at a concrete starting world and field map. -/
theorem rotation_after_nine_messages_instance :
    ∃ (ps : List Payload) (hsm' : VehicleHardwareSecurityModule),
      prepare_iter 10 (first_batch sample_world 7).1 (first_batch sample_world 7).2
        [("speed", "14")] =
        some (ps, hsm', (first_batch sample_world 7).2) ∧
      ps.length = 10 ∧
      (∀ j : Nat, j < 9 →
        ps[j]?.map Payload.certificate = some (.pem (mk_veh_cert 20 10 0 0 7))) ∧
      ps[9]?.map Payload.certificate = some (.pem (mk_veh_cert (20 + 1) (10 + 1) 0 0 7)) ∧
      mk_veh_cert (20 + 1) (10 + 1) 0 0 7 ≠ mk_veh_cert 20 10 0 0 7 ∧
      hsm'.index_number = 1 ∧ hsm'.message_count = 1 :=
  rotation_after_nine_messages sample_world 7 [("speed", "14")]

/-- C2: message_verifier evaluates its stages in a fixed order, short-circuiting
with the verdict of the first failing stage: certificate decoding (failure
escapes as an exception), certificate signature under the root key giving
CertNotTrusted, time validity giving CertExpiredOrNotYetValid, CRL lookup
giving CertRevoked with reason and date, payload signature giving
SignatureInvalid, and otherwise MessageVerified: every payload that passes
the first five stages is verified. -/
theorem message_verifier_stage_order (p : Payload) (ca : CertifyingAuthority) (now : Int) :
    (load_pem_x509_certificate p.certificate = none →
      message_verifier p ca now = .raised "ValueError: unable to load PEM certificate") ∧
    ∀ c : Certificate, load_pem_x509_certificate p.certificate = some c →
      (sig_verify ca.ca_pub_key c.ca_signature c.tbs = false →
        message_verifier p ca now = .verdict .CertNotTrusted) ∧
      (sig_verify ca.ca_pub_key c.ca_signature c.tbs = true →
        (c.tbs.not_valid_before > now ∨ c.tbs.not_valid_after < now) →
        message_verifier p ca now = .verdict .CertExpiredOrNotYetValid) ∧
      (sig_verify ca.ca_pub_key c.ca_signature c.tbs = true →
        c.tbs.not_valid_before ≤ now → now ≤ c.tbs.not_valid_after →
        ∀ e : RevocationEntry, dict_get ca.crl c.tbs.serial_number = some e →
        message_verifier p ca now =
          .verdict (.CertRevoked c.tbs.serial_number e.date e.reason)) ∧
      (sig_verify ca.ca_pub_key c.ca_signature c.tbs = true →
        c.tbs.not_valid_before ≤ now → now ≤ c.tbs.not_valid_after →
        dict_get ca.crl c.tbs.serial_number = none →
        sig_verify c.tbs.subject_public_key p.signature p.message = false →
        message_verifier p ca now = .verdict .SignatureInvalid) ∧
      (sig_verify ca.ca_pub_key c.ca_signature c.tbs = true →
        c.tbs.not_valid_before ≤ now → now ≤ c.tbs.not_valid_after →
        dict_get ca.crl c.tbs.serial_number = none →
        sig_verify c.tbs.subject_public_key p.signature p.message = true →
        message_verifier p ca now = .verdict .MessageVerified) := by
  constructor
  · intro h
    simp [message_verifier, h]
  · intro c hc
    refine ⟨?_, ?_, ?_, ?_, ?_⟩
    · intro hsig
      simp [message_verifier, hc, hsig]
    · intro hsig htime
      simp only [message_verifier, hc, hsig, if_true]
      rw [if_pos htime]
    · intro hsig ht1 ht2 e he
      simp only [message_verifier, hc, hsig, if_true]
      rw [if_neg (by omega), he]
    · intro hsig ht1 ht2 hcrl hpsig
      simp only [message_verifier, hc, hsig, if_true]
      rw [if_neg (by omega), hcrl]
      simp [hpsig]
    · intro hsig ht1 ht2 hcrl hpsig
      simp only [message_verifier, hc, hsig, if_true]
      rw [if_neg (by omega), hcrl]
      simp [hpsig]

/-- Witness for C2: one concrete instance per stage of the pipeline. -/
theorem message_verifier_stage_order_instance :
    message_verifier ⟨"m", ⟨2, "m"⟩, .malformed⟩ sample_ca 100 =
      .raised "ValueError: unable to load PEM certificate" ∧
    message_verifier ⟨"m", ⟨2, "m"⟩, .pem ⟨sample_cert.tbs, ⟨1, sample_cert.tbs⟩⟩⟩
        sample_ca 100 = .verdict .CertNotTrusted ∧
    message_verifier sample_payload sample_ca 1000 = .verdict .CertExpiredOrNotYetValid ∧
    message_verifier sample_payload sample_revoked_ca 100 =
      .verdict (.CertRevoked 5 50 "key compromise") ∧
    message_verifier ⟨"m", ⟨3, "m"⟩, .pem sample_cert⟩ sample_ca 100 =
      .verdict .SignatureInvalid ∧
    message_verifier sample_payload sample_ca 100 = .verdict .MessageVerified :=
  ⟨(message_verifier_stage_order ⟨"m", ⟨2, "m"⟩, .malformed⟩ sample_ca 100).1 rfl,
   ((message_verifier_stage_order ⟨"m", ⟨2, "m"⟩, .pem ⟨sample_cert.tbs, ⟨1, sample_cert.tbs⟩⟩⟩
       sample_ca 100).2 ⟨sample_cert.tbs, ⟨1, sample_cert.tbs⟩⟩ rfl).1 (by decide),
   ((message_verifier_stage_order sample_payload sample_ca 1000).2 sample_cert rfl).2.1
     (by decide) (by decide),
   ((message_verifier_stage_order sample_payload sample_revoked_ca 100).2 sample_cert
       rfl).2.2.1 (by decide) (by decide) (by decide)
     ⟨"V2X-Root-CA", 50, "key compromise"⟩ (by decide),
   ((message_verifier_stage_order ⟨"m", ⟨3, "m"⟩, .pem sample_cert⟩ sample_ca 100).2
       sample_cert rfl).2.2.2.1
     (by decide) (by decide) (by decide) (by decide) (by decide),
   ((message_verifier_stage_order sample_payload sample_ca 100).2 sample_cert rfl).2.2.2.2
     (by decide) (by decide) (by decide) (by decide) (by decide)⟩

/-- Counterexample for C3: a revoked but expired certificate is reported
CertExpiredOrNotYetValid rather than CertRevoked, because the time check runs
before the CRL lookup; so revocation is not independent of time validity. -/
theorem revoked_expired_cert_not_reported_revoked :
    message_verifier sample_payload sample_revoked_ca 1000 =
      .verdict .CertExpiredOrNotYetValid ∧
    message_verifier sample_payload sample_revoked_ca 1000 ≠
      .verdict (.CertRevoked 5 50 "key compromise") ∧
    dict_get sample_revoked_ca.crl 5 =
      some ⟨"V2X-Root-CA", 50, "key compromise"⟩ := by
  refine ⟨by decide, by decide, by decide⟩

/-- C3 (amended): after add_revocation(S, reason, issuer), message_verifier on
any payload whose certificate has serial S, is signed by the root, and is
time-valid at the evaluation time returns CertRevoked with that reason and
date, regardless of the payload signature; when the certificate is outside
its validity window the time check fires first instead. -/
theorem revoked_timevalid_cert_reported_revoked (ca : CertifyingAuthority)
    (s : Nat) (reason issuer : String) (rnow : Int) (p : Payload) (c : Certificate)
    (t : Int)
    (hdec : load_pem_x509_certificate p.certificate = some c)
    (hs : c.tbs.serial_number = s)
    (hsig : sig_verify ca.ca_pub_key c.ca_signature c.tbs = true)
    (ht1 : c.tbs.not_valid_before ≤ t) (ht2 : t ≤ c.tbs.not_valid_after) :
    message_verifier p (add_revocation ca s reason issuer rnow) t =
      .verdict (.CertRevoked s rnow reason) := by
  have hpub : (add_revocation ca s reason issuer rnow).ca_pub_key = ca.ca_pub_key := rfl
  have hget : dict_get (add_revocation ca s reason issuer rnow).crl c.tbs.serial_number =
      some ⟨issuer, rnow, reason⟩ := by
    show dict_get (dict_insert ca.crl s ⟨issuer, rnow, reason⟩) c.tbs.serial_number = _
    rw [hs]
    exact dict_get_insert_self ca.crl s ⟨issuer, rnow, reason⟩
  simp only [message_verifier, hdec, hpub, hsig, if_true]
  rw [if_neg (by omega), hget, hs]

/-- Witness for C3 (amended) at concrete data. -/
theorem revoked_timevalid_cert_reported_revoked_instance :
    message_verifier sample_payload
      (add_revocation sample_ca 5 "key compromise" "V2X-Root-CA" 50) 100 =
      .verdict (.CertRevoked 5 50 "key compromise") :=
  revoked_timevalid_cert_reported_revoked sample_ca 5 "key compromise" "V2X-Root-CA" 50
    sample_payload sample_cert 100 rfl rfl (by decide) (by decide) (by decide)

/-- Counterexample for C5: a payload whose certificate fails to decode makes
message_verifier propagate the decode exception; the call does not return a
classified verdict (the code has no MalformedCertificate verdict and no
try/except around certificate loading). -/
theorem malformed_certificate_raises_uncaught :
    is_classified_verdict (message_verifier ⟨"m", ⟨2, "m"⟩, .malformed⟩ sample_ca 100) =
      false ∧
    message_verifier ⟨"m", ⟨2, "m"⟩, .malformed⟩ sample_ca 100 =
      .raised "ValueError: unable to load PEM certificate" := by
  refine ⟨by decide, by decide⟩

/-- C5 (amended): for every payload whose certificate field fails to decode,
message_verifier raises the decode exception out of the call instead of
returning a classified verdict. -/
theorem malformed_certificate_propagates_exception (p : Payload)
    (ca : CertifyingAuthority) (now : Int)
    (h : load_pem_x509_certificate p.certificate = none) :
    message_verifier p ca now = .raised "ValueError: unable to load PEM certificate" ∧
    is_classified_verdict (message_verifier p ca now) = false := by
  constructor
  · simp [message_verifier, h]
  · simp [message_verifier, h, is_classified_verdict]

/-- Witness for C5 (amended) at concrete data. -/
theorem malformed_certificate_propagates_exception_instance :
    message_verifier ⟨"x", ⟨9, "x"⟩, .malformed⟩ sample_ca 0 =
      .raised "ValueError: unable to load PEM certificate" ∧
    is_classified_verdict (message_verifier ⟨"x", ⟨9, "x"⟩, .malformed⟩ sample_ca 0) =
      false :=
  malformed_certificate_propagates_exception ⟨"x", ⟨9, "x"⟩, .malformed⟩ sample_ca 0 rfl

/-- Counterexample for C7: with the payload and the authority state fixed, two
different ambient clock readings produce different verdicts, so the verdict
is not a function of the explicit inputs of the Python function (payload and
authority): the evaluation time is read from the ambient clock inside
message_verifier, not taken as an input. -/
theorem ambient_clock_changes_verdict :
    message_verifier sample_payload sample_ca 10 ≠
      message_verifier sample_payload sample_ca 1000 ∧
    message_verifier sample_payload sample_ca 10 = .verdict .MessageVerified ∧
    message_verifier sample_payload sample_ca 1000 =
      .verdict .CertExpiredOrNotYetValid := by
  refine ⟨by decide, by decide, by decide⟩

/-- C7 (amended): modelling the ambient clock read as an explicit value,
verification is deterministic in payload, authority state, and clock
reading, and depends on the reading only through the validity-window test:
any two readings inside the window of the certificate produce equal
verdicts. -/
theorem verdict_constant_within_validity_window (p : Payload)
    (ca : CertifyingAuthority) (c : Certificate) (t t' : Int)
    (hdec : load_pem_x509_certificate p.certificate = some c)
    (h1 : c.tbs.not_valid_before ≤ t) (h2 : t ≤ c.tbs.not_valid_after)
    (h3 : c.tbs.not_valid_before ≤ t') (h4 : t' ≤ c.tbs.not_valid_after) :
    message_verifier p ca t = message_verifier p ca t' := by
  suffices h : ∀ s : Int, c.tbs.not_valid_before ≤ s → s ≤ c.tbs.not_valid_after →
      message_verifier p ca s =
        (if sig_verify ca.ca_pub_key c.ca_signature c.tbs = true then
          match dict_get ca.crl c.tbs.serial_number with
          | some entry =>
            .verdict (.CertRevoked c.tbs.serial_number entry.date entry.reason)
          | none =>
            if sig_verify c.tbs.subject_public_key p.signature p.message = true then
              .verdict .MessageVerified
            else .verdict .SignatureInvalid
        else .verdict .CertNotTrusted) by
    rw [h t h1 h2, h t' h3 h4]
  intro s hs1 hs2
  simp only [message_verifier, hdec]
  cases hs : sig_verify ca.ca_pub_key c.ca_signature c.tbs
  · simp [hs]
  · simp only [hs, if_true]
    rw [if_neg (by omega)]

/-- Witness for C7 (amended) at two in-window times. -/
theorem verdict_constant_within_validity_window_instance :
    message_verifier sample_payload sample_ca 10 =
      message_verifier sample_payload sample_ca 400 :=
  verdict_constant_within_validity_window sample_payload sample_ca sample_cert 10 400
    rfl (by decide) (by decide) (by decide) (by decide)

/-- C8: add_revocation always succeeds on every input: it performs a single
keyed insertion that inserts or overwrites the revocation entry for that
serial with the clock reading, reason, and issuer, validates nothing, and
changes no other authority state: the entry for the serial is exactly the
new one and every other lookup and field is unchanged. -/
theorem add_revocation_total_update (ca : CertifyingAuthority) (serial : Nat)
    (reason issuer : String) (now : Int) :
    dict_get (add_revocation ca serial reason issuer now).crl serial =
      some { issuer := issuer, date := now, reason := reason } ∧
    (∀ s : Nat, s ≠ serial →
      dict_get (add_revocation ca serial reason issuer now).crl s =
        dict_get ca.crl s) ∧
    (add_revocation ca serial reason issuer now).ca_key = ca.ca_key ∧
    (add_revocation ca serial reason issuer now).ca_vehicles = ca.ca_vehicles ∧
    (add_revocation ca serial reason issuer now).ca_infrastructures =
      ca.ca_infrastructures := by
  refine ⟨?_, ?_, rfl, rfl, rfl⟩
  · exact dict_get_insert_self ca.crl serial _
  · intro s hs
    exact dict_get_insert_ne ca.crl serial s _ hs

/-- Witness for C8 at concrete data. -/
theorem add_revocation_total_update_instance :
    dict_get (add_revocation sample_ca 5 "key compromise" "V2X-Root-CA" 50).crl 5 =
      some { issuer := "V2X-Root-CA", date := 50, reason := "key compromise" } ∧
    (∀ s : Nat, s ≠ 5 →
      dict_get (add_revocation sample_ca 5 "key compromise" "V2X-Root-CA" 50).crl s =
        dict_get sample_ca.crl s) ∧
    (add_revocation sample_ca 5 "key compromise" "V2X-Root-CA" 50).ca_key =
      sample_ca.ca_key ∧
    (add_revocation sample_ca 5 "key compromise" "V2X-Root-CA" 50).ca_vehicles =
      sample_ca.ca_vehicles ∧
    (add_revocation sample_ca 5 "key compromise" "V2X-Root-CA" 50).ca_infrastructures =
      sample_ca.ca_infrastructures :=
  add_revocation_total_update sample_ca 5 "key compromise" "V2X-Root-CA" 50

/-- Counterexample for C9: issuing a second infrastructure certificate for the
same entity id removes the first issued certificate from the issuance
ledger: build_certificate overwrites the infrastructure entry instead of
appending. -/
theorem infrastructure_reissue_drops_ledger_entry :
    in_issuance_ledger (build_certificate sample_world 7 "infrastructure" 1).2.ca
      (build_certificate sample_world 7 "infrastructure" 1).1 = true ∧
    in_issuance_ledger
      (build_certificate (build_certificate sample_world 7 "infrastructure" 1).2
        7 "infrastructure" 2).2.ca
      (build_certificate sample_world 7 "infrastructure" 1).1 = false := by
  refine ⟨by decide, by decide⟩

/-- C9 (amended): vehicle issuance appends the new certificate to the
per-entity ledger list, preserves every previously recorded vehicle
certificate, and leaves the infrastructure ledger unchanged; infrastructure
issuance stores one certificate per entity id, a repeated call replacing the
earlier entry. -/
theorem ledger_retention_by_entity_kind (w : World) (eid pk : Nat) :
    (∀ (id' : Nat) (cs : List Certificate),
      dict_get w.ca.ca_vehicles id' = some cs →
      ∃ cs' : List Certificate,
        dict_get (build_certificate w eid "vehicle" pk).2.ca.ca_vehicles id' =
          some cs' ∧ ∀ c ∈ cs, c ∈ cs') ∧
    ((build_certificate w eid "vehicle" pk).2.ca.ca_infrastructures =
      w.ca.ca_infrastructures) ∧
    (∃ cs' : List Certificate,
      dict_get (build_certificate w eid "vehicle" pk).2.ca.ca_vehicles eid =
        some cs' ∧ (build_certificate w eid "vehicle" pk).1 ∈ cs') ∧
    (dict_get (build_certificate w eid "infrastructure" pk).2.ca.ca_infrastructures
      eid = some (build_certificate w eid "infrastructure" pk).1) := by
  refine ⟨?_, ?_, ?_, ?_⟩
  · intro id' cs hcs
    by_cases hid : id' = eid
    · rw [hid] at hcs ⊢
      have hveh : (build_certificate w eid "vehicle" pk).2.ca.ca_vehicles =
          dict_insert w.ca.ca_vehicles eid
            (cs ++ [(build_certificate w eid "vehicle" pk).1]) := by
        simp [build_certificate, hcs]
      refine ⟨cs ++ [(build_certificate w eid "vehicle" pk).1], ?_, ?_⟩
      · rw [hveh]
        exact dict_get_insert_self _ _ _
      · intro c hc
        exact List.mem_append_left _ hc
    · refine ⟨cs, ?_, fun c hc => hc⟩
      cases hv : dict_get w.ca.ca_vehicles eid with
      | none =>
        have hveh : (build_certificate w eid "vehicle" pk).2.ca.ca_vehicles =
            dict_insert (dict_insert w.ca.ca_vehicles eid []) eid
              (((dict_get (dict_insert w.ca.ca_vehicles eid []) eid).getD []) ++
                [(build_certificate w eid "vehicle" pk).1]) := by
          simp [build_certificate, hv]
        rw [hveh, dict_get_insert_ne _ _ _ _ hid, dict_get_insert_ne _ _ _ _ hid]
        exact hcs
      | some cs0 =>
        have hveh : (build_certificate w eid "vehicle" pk).2.ca.ca_vehicles =
            dict_insert w.ca.ca_vehicles eid
              (cs0 ++ [(build_certificate w eid "vehicle" pk).1]) := by
          simp [build_certificate, hv]
        rw [hveh, dict_get_insert_ne _ _ _ _ hid]
        exact hcs
  · simp only [build_certificate]
    cases hv : dict_get w.ca.ca_vehicles eid <;> simp [hv]
  · cases hv : dict_get w.ca.ca_vehicles eid with
    | none =>
      have hveh : (build_certificate w eid "vehicle" pk).2.ca.ca_vehicles =
          dict_insert (dict_insert w.ca.ca_vehicles eid []) eid
            ([] ++ [(build_certificate w eid "vehicle" pk).1]) := by
        simp [build_certificate, hv, dict_get_insert_self]
      refine ⟨[] ++ [(build_certificate w eid "vehicle" pk).1], ?_, by simp⟩
      rw [hveh]
      exact dict_get_insert_self _ _ _
    | some cs0 =>
      have hveh : (build_certificate w eid "vehicle" pk).2.ca.ca_vehicles =
          dict_insert w.ca.ca_vehicles eid
            (cs0 ++ [(build_certificate w eid "vehicle" pk).1]) := by
        simp [build_certificate, hv]
      refine ⟨cs0 ++ [(build_certificate w eid "vehicle" pk).1], ?_, by simp⟩
      rw [hveh]
      exact dict_get_insert_self _ _ _
  · have hinf : (build_certificate w eid "infrastructure" pk).2.ca.ca_infrastructures =
        dict_insert w.ca.ca_infrastructures eid
          (build_certificate w eid "infrastructure" pk).1 := by
      simp [build_certificate]
    rw [hinf]
    exact dict_get_insert_self _ _ _

/-- Witness for C9 (amended) at concrete data. -/
theorem ledger_retention_by_entity_kind_instance :
    (∀ (id' : Nat) (cs : List Certificate),
      dict_get sample_world.ca.ca_vehicles id' = some cs →
      ∃ cs' : List Certificate,
        dict_get (build_certificate sample_world 3 "vehicle" 1).2.ca.ca_vehicles id' =
          some cs' ∧ ∀ c ∈ cs, c ∈ cs') ∧
    ((build_certificate sample_world 3 "vehicle" 1).2.ca.ca_infrastructures =
      sample_world.ca.ca_infrastructures) ∧
    (∃ cs' : List Certificate,
      dict_get (build_certificate sample_world 3 "vehicle" 1).2.ca.ca_vehicles 3 =
        some cs' ∧ (build_certificate sample_world 3 "vehicle" 1).1 ∈ cs') ∧
    (dict_get (build_certificate sample_world 3 "infrastructure" 1).2.ca.ca_infrastructures
      3 = some (build_certificate sample_world 3 "infrastructure" 1).1) :=
  ledger_retention_by_entity_kind sample_world 3 1

/-- A send characterised by the state rotation leaves it in: signs with the
post-rotation current credential. -/
theorem prepare_message_after_rotation (hsm hsm1 : VehicleHardwareSecurityModule)
    (w w1 : World) (data : FieldMap) (k : Nat) (c : Certificate)
    (hrot : hsm.certificate_rotation w = (hsm1, w1))
    (hk : hsm1.current_private_key = some k)
    (hc : hsm1.current_certificate = some c) :
    hsm.prepare_message w data =
      some
        ({ message := json_dumps_sorted (dict_insert data "security_timestamp"
             (security_timestamp_value w1.clock))
           signature := { key := k, data := json_dumps_sorted (dict_insert data
             "security_timestamp" (security_timestamp_value w1.clock)) }
           certificate := .pem c },
         { hsm1 with message_count := hsm1.message_count + 1 }, w1) := by
  unfold VehicleHardwareSecurityModule.prepare_message
  rw [hrot]
  simp [hk, hc]

/-- C6: when the active index equals N - 1, the next prepare_message call
discards the entire batch and regenerates a full pool of N fresh
credentials, independent of the message count, resetting the index and count
to 0; the next payload carries the first fresh certificate, whose serial is
disjoint from all serials of the previous batch. -/
theorem batch_exhaustion_regenerates_pool (hsm : VehicleHardwareSecurityModule)
    (w : World) (data : FieldMap)
    (hlast : hsm.index_number = NO_OF_VEH_CERTS - 1)
    (hfresh : ∀ c ∈ hsm.certificate, c.tbs.serial_number < w.next_serial) :
    (hsm.certificate_rotation w).1.index_number = 0 ∧
    (hsm.certificate_rotation w).1.message_count = 0 ∧
    (hsm.certificate_rotation w).1.certificate.length = NO_OF_VEH_CERTS ∧
    (∀ c2 ∈ (hsm.certificate_rotation w).1.certificate, ∀ c1 ∈ hsm.certificate,
      c2.tbs.serial_number ≠ c1.tbs.serial_number) ∧
    ∃ (p : Payload) (hsm' : VehicleHardwareSecurityModule) (w' : World),
      hsm.prepare_message w data = some (p, hsm', w') ∧
      p.certificate = .pem (mk_veh_cert w.next_serial w.next_key w.clock w.ca.ca_key
        hsm.vehicle_id) ∧
      hsm'.index_number = 0 ∧ hsm'.message_count = 1 ∧
      (∀ c1 ∈ hsm.certificate, w.next_serial ≠ c1.tbs.serial_number) := by
  have hrot := certificate_rotation_regen hsm w hlast
  obtain ⟨g1, g2, g3, g4, g5, g6⟩ :=
    generate_vehicle_cert_spec
      { hsm with
        private_key := []
        certificate := []
        message_count := 0
        index_number := 0
        current_private_key := none
        current_certificate := none } w rfl rfl rfl
  have hrot1 : (hsm.certificate_rotation w).1 =
      (VehicleHardwareSecurityModule.generate_vehicle_cert
        { hsm with
          private_key := []
          certificate := []
          message_count := 0
          index_number := 0
          current_private_key := none
          current_certificate := none } w).1 := by rw [hrot]
  refine ⟨?_, ?_, ?_, ?_, ?_⟩
  · rw [hrot1, g1]
  · rw [hrot1, g1]
  · rw [hrot1, g1]
    simp
  · intro c2 hc2 c1 hc1
    rw [hrot1, g1] at hc2
    have hc2' : c2 ∈ (List.range NO_OF_VEH_CERTS).map (fun i =>
        mk_veh_cert (w.next_serial + i) (w.next_key + i) w.clock w.ca.ca_key
          hsm.vehicle_id) := hc2
    obtain ⟨i, _, rfl⟩ := List.mem_map.mp hc2'
    have h1 := hfresh c1 hc1
    show w.next_serial + i ≠ c1.tbs.serial_number
    omega
  · have hk : (VehicleHardwareSecurityModule.generate_vehicle_cert
        { hsm with
          private_key := []
          certificate := []
          message_count := 0
          index_number := 0
          current_private_key := none
          current_certificate := none } w).1.current_private_key = some w.next_key := by
      rw [g1]
    have hc : (VehicleHardwareSecurityModule.generate_vehicle_cert
        { hsm with
          private_key := []
          certificate := []
          message_count := 0
          index_number := 0
          current_private_key := none
          current_certificate := none } w).1.current_certificate =
        some (mk_veh_cert w.next_serial w.next_key w.clock w.ca.ca_key
          hsm.vehicle_id) := by
      rw [g1]
    have hp := prepare_message_after_rotation hsm _ w _ data w.next_key
      (mk_veh_cert w.next_serial w.next_key w.clock w.ca.ca_key hsm.vehicle_id)
      (by rw [hrot]) hk hc
    refine ⟨_, _, _, hp, rfl, ?_, ?_, ?_⟩
    · dsimp only
      rw [g1]
    · dsimp only
      rw [g1]
    · intro c1 hc1
      have h1 := hfresh c1 hc1
      omega

/-- Witness for C6 at a concrete exhausted holder. -/
theorem batch_exhaustion_regenerates_pool_instance :
    (((⟨7, 99, 4, some 1, some sample_cert, [1, 2],
        [mk_veh_cert 3 1 0 0 7, mk_veh_cert 4 2 0 0 7]⟩ :
      VehicleHardwareSecurityModule)).certificate_rotation
        sample_world).1.index_number = 0 ∧
    (((⟨7, 99, 4, some 1, some sample_cert, [1, 2],
        [mk_veh_cert 3 1 0 0 7, mk_veh_cert 4 2 0 0 7]⟩ :
      VehicleHardwareSecurityModule)).certificate_rotation
        sample_world).1.message_count = 0 ∧
    (((⟨7, 99, 4, some 1, some sample_cert, [1, 2],
        [mk_veh_cert 3 1 0 0 7, mk_veh_cert 4 2 0 0 7]⟩ :
      VehicleHardwareSecurityModule)).certificate_rotation
        sample_world).1.certificate.length = NO_OF_VEH_CERTS ∧
    (∀ c2 ∈ (((⟨7, 99, 4, some 1, some sample_cert, [1, 2],
        [mk_veh_cert 3 1 0 0 7, mk_veh_cert 4 2 0 0 7]⟩ :
      VehicleHardwareSecurityModule)).certificate_rotation
        sample_world).1.certificate,
      ∀ c1 ∈ [mk_veh_cert 3 1 0 0 7, mk_veh_cert 4 2 0 0 7],
        c2.tbs.serial_number ≠ c1.tbs.serial_number) ∧
    ∃ (p : Payload) (hsm' : VehicleHardwareSecurityModule) (w' : World),
      ((⟨7, 99, 4, some 1, some sample_cert, [1, 2],
        [mk_veh_cert 3 1 0 0 7, mk_veh_cert 4 2 0 0 7]⟩ :
      VehicleHardwareSecurityModule)).prepare_message sample_world [("speed", "14")] =
        some (p, hsm', w') ∧
      p.certificate = .pem (mk_veh_cert 20 10 0 0 7) ∧
      hsm'.index_number = 0 ∧ hsm'.message_count = 1 ∧
      (∀ c1 ∈ [mk_veh_cert 3 1 0 0 7, mk_veh_cert 4 2 0 0 7],
        (20 : Nat) ≠ c1.tbs.serial_number) :=
  batch_exhaustion_regenerates_pool
    ⟨7, 99, 4, some 1, some sample_cert, [1, 2],
      [mk_veh_cert 3 1 0 0 7, mk_veh_cert 4 2 0 0 7]⟩
    sample_world [("speed", "14")] (by decide) (by decide)

/-- C4: round-trip law: for every non-empty field map without the reserved
timestamp key, verifying the payload produced by prepare_message against the
same authority, at a time inside the validity window of the signing
certificate, returns MessageVerified (the CRL freshness hypothesis is the
symbolic counterpart of the overwhelming-probability disjointness of random
serials from previously revoked ones). -/
theorem prepare_then_verify_roundtrip (w : World) (vid : Nat) (data : FieldMap)
    (t : Int)
    (hcrl : ∀ e ∈ w.ca.crl, e.1 < w.next_serial)
    (hne : data ≠ [])
    (hts : dict_get data "security_timestamp" = none)
    (ht1 : w.clock ≤ t) (ht2 : t ≤ w.clock + CERT_VALIDITY) :
    ∃ (p : Payload) (hsm' : VehicleHardwareSecurityModule),
      (first_batch w vid).1.prepare_message (first_batch w vid).2 data =
        some (p, hsm', (first_batch w vid).2) ∧
      message_verifier p (first_batch w vid).2.ca t = .verdict .MessageVerified := by
  obtain ⟨g1, g2, g3, g4, g5, g6⟩ :=
    generate_vehicle_cert_spec (VehicleHardwareSecurityModule.init vid) w rfl rfl rfl
  have hvid : (VehicleHardwareSecurityModule.init vid).vehicle_id = vid := rfl
  rw [hvid] at g1
  have g1' : (first_batch w vid).1 =
      { VehicleHardwareSecurityModule.init vid with
        private_key := (List.range NO_OF_VEH_CERTS).map (fun i => w.next_key + i)
        certificate := (List.range NO_OF_VEH_CERTS).map (fun i =>
          mk_veh_cert (w.next_serial + i) (w.next_key + i) w.clock w.ca.ca_key vid)
        current_private_key := some w.next_key
        current_certificate := some (mk_veh_cert w.next_serial w.next_key w.clock
          w.ca.ca_key vid) } := g1
  have hBidx : (first_batch w vid).1.index_number = 0 := by
    rw [g1']
    rfl
  have hBcnt : (first_batch w vid).1.message_count = 0 := by
    rw [g1']
    rfl
  have hBk : (first_batch w vid).1.current_private_key = some w.next_key := by
    rw [g1']
  have hBc : (first_batch w vid).1.current_certificate =
      some (mk_veh_cert w.next_serial w.next_key w.clock w.ca.ca_key vid) := by
    rw [g1']
  have h99 : (first_batch w vid).1.index_number ≠ NO_OF_VEH_CERTS - 1 := by
    rw [hBidx]; decide
  have hp := prepare_message_no_rot (first_batch w vid).1 (first_batch w vid).2 data
    w.next_key (mk_veh_cert w.next_serial w.next_key w.clock w.ca.ca_key vid)
    h99 (Or.inl hBcnt) hBk hBc
  refine ⟨_, _, hp, ?_⟩
  have hcak : ((first_batch w vid).2.ca).ca_pub_key = w.ca.ca_key := g5
  have hcrl' : (first_batch w vid).2.ca.crl = w.ca.crl := g6
  have hnone : dict_get ((first_batch w vid).2.ca).crl w.next_serial = none := by
    rw [hcrl']
    apply dict_get_eq_none
    intro e he
    exact Nat.ne_of_lt (hcrl e he)
  simp only [message_verifier]
  have hload : load_pem_x509_certificate
      (EncodedCert.pem (mk_veh_cert w.next_serial w.next_key w.clock w.ca.ca_key vid)) =
      some (mk_veh_cert w.next_serial w.next_key w.clock w.ca.ca_key vid) := rfl
  simp only [hload]
  have hsig : sig_verify ((first_batch w vid).2.ca).ca_pub_key
      (mk_veh_cert w.next_serial w.next_key w.clock w.ca.ca_key vid).ca_signature
      (mk_veh_cert w.next_serial w.next_key w.clock w.ca.ca_key vid).tbs = true := by
    rw [hcak]
    simp [mk_veh_cert, sig_verify]
  simp only [hsig, if_true]
  have hserial : (mk_veh_cert w.next_serial w.next_key w.clock
      w.ca.ca_key vid).tbs.serial_number = w.next_serial := rfl
  rw [if_neg ?hw]
  case hw =>
    show ¬((mk_veh_cert w.next_serial w.next_key w.clock w.ca.ca_key vid).tbs.not_valid_before > t ∨
      (mk_veh_cert w.next_serial w.next_key w.clock w.ca.ca_key vid).tbs.not_valid_after < t)
    have e1 : (mk_veh_cert w.next_serial w.next_key w.clock
        w.ca.ca_key vid).tbs.not_valid_before = w.clock := rfl
    have e2 : (mk_veh_cert w.next_serial w.next_key w.clock
        w.ca.ca_key vid).tbs.not_valid_after = w.clock + CERT_VALIDITY := rfl
    rw [e1, e2]
    omega
  rw [hserial, hnone]
  have hpsig : sig_verify
      (mk_veh_cert w.next_serial w.next_key w.clock w.ca.ca_key vid).tbs.subject_public_key
      (Sig.mk w.next_key (json_dumps_sorted (dict_insert data "security_timestamp"
        (security_timestamp_value (first_batch w vid).2.clock))))
      (json_dumps_sorted (dict_insert data "security_timestamp"
        (security_timestamp_value (first_batch w vid).2.clock))) = true := by
    simp [mk_veh_cert, sig_verify]
  simp [hpsig]

/-- Witness for C4 at a concrete world with a non-empty CRL. -/
theorem prepare_then_verify_roundtrip_instance :
    ∃ (p : Payload) (hsm' : VehicleHardwareSecurityModule),
      (first_batch (⟨⟨0, [], [], [(3, ⟨"V2X-Root-CA", 1, "misuse"⟩)]⟩, 10, 20, 0⟩ :
          World) 7).1.prepare_message
        (first_batch (⟨⟨0, [], [], [(3, ⟨"V2X-Root-CA", 1, "misuse"⟩)]⟩, 10, 20, 0⟩ :
          World) 7).2 [("speed", "14")] =
        some (p, hsm',
          (first_batch (⟨⟨0, [], [], [(3, ⟨"V2X-Root-CA", 1, "misuse"⟩)]⟩, 10, 20, 0⟩ :
            World) 7).2) ∧
      message_verifier p
        (first_batch (⟨⟨0, [], [], [(3, ⟨"V2X-Root-CA", 1, "misuse"⟩)]⟩, 10, 20, 0⟩ :
          World) 7).2.ca 100 = .verdict .MessageVerified :=
  prepare_then_verify_roundtrip
    ⟨⟨0, [], [], [(3, ⟨"V2X-Root-CA", 1, "misuse"⟩)]⟩, 10, 20, 0⟩ 7 [("speed", "14")]
    100 (by decide) (by decide) (by decide) (by decide) (by decide)

/-- The code-point order is irreflexive. -/
theorem str_list_lt_irrefl : ∀ a : List Char, str_list_lt a a = false := by
  intro a
  induction a with
  | nil => rfl
  | cons x xs ih => simp [str_list_lt, ih]

/-- The code-point order is asymmetric. -/
theorem str_list_lt_asymm : ∀ a b : List Char,
    str_list_lt a b = true → str_list_lt b a = false := by
  intro a
  induction a with
  | nil =>
    intro b h
    cases b with
    | nil => simp [str_list_lt] at h
    | cons y ys => rfl
  | cons x xs ih =>
    intro b h
    cases b with
    | nil => cases h
    | cons y ys =>
      simp only [str_list_lt] at h ⊢
      by_cases h1 : x.toNat < y.toNat
      · have h2 : ¬ y.toNat < x.toNat := by omega
        simp [h1, h2]
      · by_cases h2 : y.toNat < x.toNat
        · simp [h1, h2] at h
        · simp only [h1, h2, if_false] at h ⊢
          exact ih ys h

/-- The code-point order is connected: incomparable lists are equal. -/
theorem str_list_lt_conn : ∀ a b : List Char,
    str_list_lt a b = false → str_list_lt b a = false → a = b := by
  intro a
  induction a with
  | nil =>
    intro b h1 _
    cases b with
    | nil => rfl
    | cons y ys => cases h1
  | cons x xs ih =>
    intro b h1 h2
    cases b with
    | nil => cases h2
    | cons y ys =>
      simp only [str_list_lt] at h1 h2
      by_cases hx : x.toNat < y.toNat
      · simp [hx] at h1
      · by_cases hy : y.toNat < x.toNat
        · simp [hx, hy] at h2
        · simp only [hx, hy, if_false] at h1 h2
          have hchar : x = y := by
            apply Char.ext
            apply UInt32.ext
            have e1 : x.toNat = x.val.toNat := rfl
            have e2 : y.toNat = y.val.toNat := rfl
            omega
          rw [hchar, ih ys h1 h2]

/-- The code-point order is transitive. -/
theorem str_list_lt_trans : ∀ a b c : List Char,
    str_list_lt a b = true → str_list_lt b c = true → str_list_lt a c = true := by
  intro a
  induction a with
  | nil =>
    intro b c h1 h2
    cases b with
    | nil => cases h1
    | cons y ys =>
      cases c with
      | nil => cases h2
      | cons z zs => rfl
  | cons x xs ih =>
    intro b c h1 h2
    cases b with
    | nil => cases h1
    | cons y ys =>
      cases c with
      | nil => cases h2
      | cons z zs =>
        simp only [str_list_lt] at h1 h2 ⊢
        by_cases hxy : x.toNat < y.toNat
        · by_cases hyz : y.toNat < z.toNat
          · have : x.toNat < z.toNat := by omega
            simp [this]
          · by_cases hzy : z.toNat < y.toNat
            · simp [hyz, hzy] at h2
            · have hy : y.toNat = z.toNat := by omega
              have : x.toNat < z.toNat := by omega
              simp [this]
        · by_cases hyx : y.toNat < x.toNat
          · simp [hxy, hyx] at h1
          · have hx : x.toNat = y.toNat := by omega
            by_cases hyz : y.toNat < z.toNat
            · have : x.toNat < z.toNat := by omega
              simp [this]
            · by_cases hzy : z.toNat < y.toNat
              · simp [hyz, hzy] at h2
              · have h3 : ¬ x.toNat < z.toNat := by omega
                have h4 : ¬ z.toNat < x.toNat := by omega
                simp only [hxy, hyx, if_false] at h1
                simp only [hyz, hzy, if_false] at h2
                simp only [h3, h4, if_false]
                exact ih ys zs h1 h2

/-- Key comparison is reflexive. -/
theorem key_le_refl (p : String × String) : key_le p p = true := by
  simp [key_le, str_list_lt_irrefl]

/-- Key comparison is total. -/
theorem key_le_total (p q : String × String) :
    key_le p q = true ∨ key_le q p = true := by
  by_cases h : str_list_lt q.1.data p.1.data = true
  · right
    simp only [key_le, str_list_lt_asymm _ _ h, Bool.not_false]
  · left
    simp only [key_le, Bool.not_eq_true']
    exact Bool.not_eq_true _ ▸ h

/-- Key comparison is transitive. -/
theorem key_le_trans (p q r : String × String) (h1 : key_le p q = true)
    (h2 : key_le q r = true) : key_le p r = true := by
  simp only [key_le, Bool.not_eq_true'] at h1 h2 ⊢
  by_cases h : str_list_lt r.1.data p.1.data = true
  · exfalso
    by_cases hqr : str_list_lt q.1.data r.1.data = true
    · have hc := str_list_lt_trans _ _ _ hqr h
      rw [hc] at h1
      cases h1
    · have hqr' : q.1.data = r.1.data :=
        str_list_lt_conn _ _ (Bool.not_eq_true _ ▸ hqr) h2
      rw [← hqr'] at h
      rw [h] at h1
      cases h1
  · exact Bool.not_eq_true _ ▸ h

/-- Fields comparing below each other have equal keys. -/
theorem key_eq_of_le_ge (p q : String × String) (h1 : key_le p q = true)
    (h2 : key_le q p = true) : p.1 = q.1 := by
  simp only [key_le, Bool.not_eq_true'] at h1 h2
  exact String.ext (str_list_lt_conn _ _ h2 h1)

/-- Insertion produces a permutation of the cons. -/
theorem insort_field_perm (p : String × String) :
    ∀ l : FieldMap, (insort_field p l).Perm (p :: l) := by
  intro l
  induction l with
  | nil => exact List.Perm.refl _
  | cons q l ih =>
    simp only [insort_field]
    by_cases h : key_le p q = true
    · rw [if_pos h]
    · rw [if_neg h]
      exact List.Perm.trans (List.Perm.cons q ih) (List.Perm.swap p q l)

/-- Sorting permutes the field list. -/
theorem sort_fields_perm : ∀ l : FieldMap, (sort_fields l).Perm l := by
  intro l
  induction l with
  | nil => exact List.Perm.refl _
  | cons p l ih =>
    exact List.Perm.trans (insort_field_perm p (sort_fields l)) (List.Perm.cons p ih)

/-- Insertion preserves sortedness. -/
theorem insort_field_pairwise (p : String × String) (l : FieldMap)
    (hl : l.Pairwise (fun a b => key_le a b = true)) :
    (insort_field p l).Pairwise (fun a b => key_le a b = true) := by
  induction l with
  | nil => simp [insort_field]
  | cons q l ih =>
    simp only [insort_field]
    rcases List.pairwise_cons.mp hl with ⟨hq, hl'⟩
    by_cases h : key_le p q = true
    · rw [if_pos h]
      refine List.pairwise_cons.mpr ⟨?_, hl⟩
      intro b hb
      rcases List.mem_cons.mp hb with hb | hb
      · rw [hb]
        exact h
      · exact key_le_trans p q b h (hq b hb)
    · rw [if_neg h]
      have hqp : key_le q p = true := by
        rcases key_le_total p q with h' | h'
        · exact absurd h' h
        · exact h'
      refine List.pairwise_cons.mpr ⟨?_, ih hl'⟩
      intro b hb
      have hb' : b ∈ p :: l := (insort_field_perm p l).mem_iff.mp hb
      rcases List.mem_cons.mp hb' with hb' | hb'
      · rw [hb']
        exact hqp
      · exact hq b hb'

/-- The sorted field list is sorted by key. -/
theorem sort_fields_pairwise : ∀ l : FieldMap,
    (sort_fields l).Pairwise (fun a b => key_le a b = true) := by
  intro l
  induction l with
  | nil => simp [sort_fields]
  | cons p l ih => exact insort_field_pairwise p (sort_fields l) ih

/-- Two key-sorted permutations of a map with distinct keys are equal: the
canonical serialization order is unique. -/
theorem sorted_nodup_keys_unique : ∀ l1 l2 : FieldMap,
    l1.Perm l2 →
    l1.Pairwise (fun a b => key_le a b = true) →
    l2.Pairwise (fun a b => key_le a b = true) →
    (l1.map Prod.fst).Nodup →
    l1 = l2 := by
  intro l1
  induction l1 with
  | nil =>
    intro l2 hperm _ _ _
    exact (hperm.symm.eq_nil).symm
  | cons p l1 ih =>
    intro l2 hperm hp1 hp2 hnd
    cases l2 with
    | nil =>
      exact absurd hperm.eq_nil (by simp)
    | cons q l2 =>
      rcases List.pairwise_cons.mp hp1 with ⟨hple, hl1⟩
      rcases List.pairwise_cons.mp hp2 with ⟨hqle, hl2⟩
      have hq_mem : q ∈ p :: l1 := hperm.mem_iff.mpr (List.mem_cons_self q l2)
      have hp_mem : p ∈ q :: l2 := hperm.mem_iff.mp (List.mem_cons_self p l1)
      have hpq : p = q := by
        rcases List.mem_cons.mp hq_mem with h | h
        · exact h.symm
        · rcases List.mem_cons.mp hp_mem with h' | h'
          · exact h'
          · have hle1 : key_le p q = true := hple q h
            have hle2 : key_le q p = true := hqle p h'
            have hkey : p.1 = q.1 := key_eq_of_le_ge p q hle1 hle2
            exfalso
            rcases List.nodup_cons.mp hnd with ⟨hnp, _⟩
            apply hnp
            rw [hkey]
            exact List.mem_map_of_mem Prod.fst h
      subst hpq
      have hperm' : l1.Perm l2 := hperm.cons_inv
      have hnd' : (l1.map Prod.fst).Nodup := (List.nodup_cons.mp hnd).2
      rw [ih l2 hperm' hl1 hl2 hnd']

/-- The canonical serialization is independent of the field order of a map
with distinct keys. -/
theorem json_dumps_sorted_perm (d1 d2 : FieldMap) (hperm : d1.Perm d2)
    (hnd : (d1.map Prod.fst).Nodup) :
    json_dumps_sorted d1 = json_dumps_sorted d2 := by
  have hsorteq : sort_fields d1 = sort_fields d2 := by
    apply sorted_nodup_keys_unique
    · exact (sort_fields_perm d1).trans (hperm.trans (sort_fields_perm d2).symm)
    · exact sort_fields_pairwise d1
    · exact sort_fields_pairwise d2
    · exact ((sort_fields_perm d1).map Prod.fst).nodup_iff.mpr hnd
  simp [json_dumps_sorted, hsorteq]

/-- Rotation never changes the clock. -/
theorem certificate_rotation_clock (hsm : VehicleHardwareSecurityModule) (w : World) :
    (hsm.certificate_rotation w).2.clock = w.clock := by
  unfold VehicleHardwareSecurityModule.certificate_rotation
  by_cases h : hsm.index_number = NO_OF_VEH_CERTS - 1
  · rw [if_pos h]
    exact (generate_vehicle_cert_spec
      { hsm with
        private_key := []
        certificate := []
        message_count := 0
        index_number := 0
        current_private_key := none
        current_certificate := none } w rfl rfl rfl).2.2.2.1
  · rw [if_neg h]
    by_cases h2 : hsm.message_count % (NO_OF_MSG_CERT_ROT - 1) = 0 ∧
        hsm.message_count ≠ 0
    · rw [if_pos h2]
    · rw [if_neg h2]

/-- C10: for every field map passed to either prepare_message variant, the
signed message bytes are the deterministic serialization, with sorted keys
and compact separators, of a copy of the map with the security_timestamp key
set to the clock reading; a security_timestamp entry already present in the
map of the caller is silently replaced, while the map of the caller is left
unchanged (the model is pure and the code copies with dict(data)); the
serialization does not depend on the order of a map with distinct keys. -/
theorem prepare_message_canonical_serialization :
    (∀ (hsm : VehicleHardwareSecurityModule) (w : World) (data : FieldMap)
       (p : Payload) (hsm' : VehicleHardwareSecurityModule) (w' : World),
      hsm.prepare_message w data = some (p, hsm', w') →
      p.message = json_dumps_sorted (dict_insert data "security_timestamp"
        (security_timestamp_value w.clock))) ∧
    (∀ (ihsm : InfrastructureHardwareSecurityModule) (w : World) (data : FieldMap)
       (p : Payload) (ihsm' : InfrastructureHardwareSecurityModule) (w' : World),
      ihsm.prepare_message w data = some (p, ihsm', w') →
      p.message = json_dumps_sorted (dict_insert data "security_timestamp"
        (security_timestamp_value w.clock))) ∧
    (∀ (data : FieldMap) (k v : String),
      dict_get (dict_insert data k v) k = some v ∧
      ∀ k' : String, k' ≠ k →
        dict_get (dict_insert data k v) k' = dict_get data k') ∧
    (∀ d1 d2 : FieldMap, d1.Perm d2 → (d1.map Prod.fst).Nodup →
      json_dumps_sorted d1 = json_dumps_sorted d2) := by
  refine ⟨?_, ?_, ?_, json_dumps_sorted_perm⟩
  · intro hsm w data p hsm' w' hp
    unfold VehicleHardwareSecurityModule.prepare_message at hp
    dsimp only at hp
    cases hk : (hsm.certificate_rotation w).1.current_private_key with
    | none => rw [hk] at hp; cases hp
    | some k =>
      cases hc : (hsm.certificate_rotation w).1.current_certificate with
      | none => rw [hk, hc] at hp; cases hp
      | some c =>
        rw [hk, hc] at hp
        dsimp only at hp
        rw [Option.some_inj, Prod.mk.injEq] at hp
        have hmsg : p.message = json_dumps_sorted (dict_insert data
            "security_timestamp"
            (security_timestamp_value (hsm.certificate_rotation w).2.clock)) := by
          rw [← hp.1]
        rw [hmsg, certificate_rotation_clock]
  · intro ihsm w data p ihsm' w' hp
    unfold InfrastructureHardwareSecurityModule.prepare_message at hp
    dsimp only at hp
    cases hk : ihsm.private_key with
    | none => rw [hk] at hp; cases hp
    | some k =>
      cases hc : ihsm.certificate with
      | none => rw [hk, hc] at hp; cases hp
      | some c =>
        rw [hk, hc] at hp
        dsimp only at hp
        rw [Option.some_inj, Prod.mk.injEq] at hp
        rw [← hp.1]
  · intro data k v
    exact ⟨dict_get_insert_self data k v,
      fun k' hk' => dict_get_insert_ne data k k' v hk'⟩

/-- Witness for C10: concrete vehicle and infrastructure sends, replacement, and order independence. -/
theorem prepare_message_canonical_serialization_instance :
    (⟨json_dumps_sorted (dict_insert [("speed", "14")] "security_timestamp"
          (security_timestamp_value 0)),
        ⟨1, json_dumps_sorted (dict_insert [("speed", "14")] "security_timestamp"
          (security_timestamp_value 0))⟩,
        .pem sample_cert⟩ : Payload).message =
      json_dumps_sorted (dict_insert [("speed", "14")] "security_timestamp"
        (security_timestamp_value 0)) ∧
    (⟨json_dumps_sorted (dict_insert [("pos", "3")] "security_timestamp"
          (security_timestamp_value 0)),
        ⟨2, json_dumps_sorted (dict_insert [("pos", "3")] "security_timestamp"
          (security_timestamp_value 0))⟩,
        .pem sample_cert⟩ : Payload).message =
      json_dumps_sorted (dict_insert [("pos", "3")] "security_timestamp"
        (security_timestamp_value 0)) ∧
    dict_get (dict_insert [("speed", "14")] "security_timestamp" "77")
      "security_timestamp" = some "77" ∧
    dict_get (dict_insert [("speed", "14")] "security_timestamp" "77") "speed" =
      dict_get [("speed", "14")] "speed" ∧
    json_dumps_sorted [("b", "2"), ("a", "1")] =
      json_dumps_sorted [("a", "1"), ("b", "2")] :=
  ⟨prepare_message_canonical_serialization.1
      ⟨7, 0, 0, some 1, some sample_cert, [1], [sample_cert]⟩ sample_world
      [("speed", "14")]
      ⟨json_dumps_sorted (dict_insert [("speed", "14")] "security_timestamp"
          (security_timestamp_value 0)),
        ⟨1, json_dumps_sorted (dict_insert [("speed", "14")] "security_timestamp"
          (security_timestamp_value 0))⟩,
        .pem sample_cert⟩
      ⟨7, 0, 1, some 1, some sample_cert, [1], [sample_cert]⟩ sample_world (by decide),
   prepare_message_canonical_serialization.2.1
      ⟨3, some 2, some sample_cert, 0⟩ sample_world [("pos", "3")]
      ⟨json_dumps_sorted (dict_insert [("pos", "3")] "security_timestamp"
          (security_timestamp_value 0)),
        ⟨2, json_dumps_sorted (dict_insert [("pos", "3")] "security_timestamp"
          (security_timestamp_value 0))⟩,
        .pem sample_cert⟩
      ⟨3, some 2, some sample_cert, 1⟩ sample_world (by decide),
   (prepare_message_canonical_serialization.2.2.1 [("speed", "14")]
      "security_timestamp" "77").1,
   (prepare_message_canonical_serialization.2.2.1 [("speed", "14")]
      "security_timestamp" "77").2 "speed" (by decide),
   prepare_message_canonical_serialization.2.2.2 [("b", "2"), ("a", "1")]
      [("a", "1"), ("b", "2")] (by decide) (by decide)⟩
